import Mathlib

/-!
# Verification of `cclaw2epub.py`

A shallow embedding of the content-extraction and document-assembly pipeline
of `cclaw2epub.py` (class `Book`), together with theorems settling the
specification claims about it.

The embedding works on the parsed document level: BeautifulSoup's HTML
parsing and `requests` are external collaborators, so a page is modelled as
the structured facts the script queries out of the soup (headings,
centre-aligned paragraphs with their anchors, image blocks with their
`data-orig-file` / `data-orig-size` attributes, the published-time meta
value).  Every lookup the script performs unguarded is modelled as an
`Option` whose `none` case produces the corresponding Python exception
(`AttributeError` for a method call on `None`, `KeyError`/`IndexError`/
`ValueError` for subscripts and conversions, `SystemExit` for `sys.exit`).
-/

namespace CClaw

/-- Python exceptions that the script can raise while building a book. -/
inductive PyErr where
  | attributeError
  | valueError
  | indexError
  | systemExit (msg : String)
  deriving Repr, DecidableEq

/-! ## Python string primitives used by the script -/

/-- Lexicographic `<` on code-point lists: the shorter list loses when it
is a proper prefix of the longer. -/
def pyCharsLt : List Char → List Char → Bool
  | _, [] => false
  | [], _ :: _ => true
  | a :: as, b :: bs =>
    if a.toNat < b.toNat then true
    else if b.toNat < a.toNat then false
    else pyCharsLt as bs

/-- Python string `<`: lexicographic comparison on code points. -/
def pyStrLt (a b : String) : Bool := pyCharsLt a.data b.data

/-- Split a character list at every separator satisfying `p`; the result
always has one more piece than there are separators, so it is never empty
(Python's `str.split(sep)` shape). -/
def pySplitPred (p : Char → Bool) : List Char → List (List Char)
  | [] => [[]]
  | c :: rest =>
    match pySplitPred p rest with
    | [] => [[]]
    | t :: ts => if p c then [] :: t :: ts else (c :: t) :: ts

/-- Python `s.split(sep)` for a one-character separator. -/
def pySplitChar (sep : Char) (s : String) : List String :=
  (pySplitPred (fun c => c = sep) s.data).map fun cs => ⟨cs⟩

/-- Python `s.startswith(pre)`. -/
def pyStartsWith (s pre : String) : Bool :=
  pre.data.isPrefixOf s.data

/-- Python slice `s[:-n]` (used as `text[:-len(' ToC')]` on line 181):
all characters of `s` but the last `n` (empty when `n ≥ len(s)`). -/
def pyDropLast (s : String) (n : Nat) : String :=
  ⟨s.data.take (s.data.length - n)⟩

/-- Python `url.split('/')[-1]` on the nonempty result of `str.split(sep)`:
the basename used for image filenames. -/
def pyBasename (u : String) : String :=
  (pySplitChar '/' u).getLastD ""

/-- Python `text.split()[-1]` (line 206): split on whitespace runs, drop the
empty pieces, take the last token; `none` models the `IndexError` on a
whitespace-only string. -/
def pyLastToken (s : String) : Option String :=
  ((pySplitPred Char.isWhitespace s.data).map (fun cs => (⟨cs⟩ : String))).filter (fun t => t ≠ "") |>.getLast?

/-- One decimal digit. -/
def pyDigit (c : Char) : Option Nat :=
  if '0' ≤ c ∧ c ≤ '9' then some (c.toNat - '0'.toNat) else none

/-- Digits of a numeral, most significant first. -/
def pyDigits : List Char → Option Nat
  | [] => none
  | cs => cs.foldlM (fun acc c => (pyDigit c).map (fun d => acc * 10 + d)) 0

/-- Python `int(s)` restricted to the shapes the scraped attributes take:
an optional sign followed by decimal digits (`none` models `ValueError`). -/
def pyInt (s : String) : Option Int :=
  match s.data with
  | '-' :: cs => (pyDigits cs).map (fun n => -(n : Int))
  | '+' :: cs => (pyDigits cs).map (fun n => (n : Int))
  | cs => (pyDigits cs).map (fun n => (n : Int))

/-- Python truthiness of the optional `volume` argument: `None` and the
empty string are falsy, every other string is truthy. -/
def pyTruthy : Option String → Bool
  | none => false
  | some s => s ≠ ""

/-! ## `datetime.fromisoformat` / `strftime`

The script parses the `article:published_time` meta value with
`datetime.fromisoformat` and re-renders it with
`strftime('%Y-%m-%dT%H:%M:%SZ')`.  We model the canonical subset of
ISO-8601 that the site's meta tags use: `YYYY-MM-DD`, optionally followed
by `T`/space and `HH:MM:SS`, optionally followed by `Z` or `±HH:MM`.
Anything else parses to `none` (Python's `ValueError`). -/

/-- An aware-or-naive Python `datetime` at second precision. -/
structure PyDateTime where
  year : Nat
  month : Nat
  day : Nat
  hour : Nat
  minute : Nat
  second : Nat
  /-- `tzinfo` as a whole-minute UTC offset; `none` for a naive value. -/
  utcOffsetMinutes : Option Int
  deriving Repr, DecidableEq

/-- Parse exactly two digits. -/
def parse2 : List Char → Option Nat
  | [a, b] => do pure ((← pyDigit a) * 10 + (← pyDigit b))
  | _ => none

/-- Parse exactly four digits. -/
def parse4 : List Char → Option Nat
  | [a, b, c, d] => do
    pure ((((← pyDigit a) * 10 + (← pyDigit b)) * 10 + (← pyDigit c)) * 10
      + (← pyDigit d))
  | _ => none

/-- Parse the timezone suffix: nothing (naive), `Z`, or `±HH:MM`. -/
def parseTz : List Char → Option (Option Int)
  | [] => some none
  | ['Z'] => some (some 0)
  | sgn :: rest =>
    if sgn = '+' ∨ sgn = '-' then
      match rest with
      | [h1, h2, ':', m1, m2] => do
        let h ← parse2 [h1, h2]
        let m ← parse2 [m1, m2]
        if h < 24 ∧ m < 60 then
          let total : Int := (h : Int) * 60 + (m : Int)
          pure (some (if sgn = '-' then -total else total))
        else none
      | _ => none
    else none

/-- Days in a month of the (proleptic) Gregorian calendar. -/
def daysInMonth (y m : Nat) : Nat :=
  if m = 2 then
    if y % 4 = 0 ∧ (y % 100 ≠ 0 ∨ y % 400 = 0) then 29 else 28
  else if m = 4 ∨ m = 6 ∨ m = 9 ∨ m = 11 then 30
  else 31

/-- `datetime.fromisoformat` on the canonical subset described above. -/
def fromisoformat (s : String) : Option PyDateTime := do
  let cs := s.data
  let y ← parse4 (cs.take 4)
  let rest ← match cs.drop 4 with
    | '-' :: r => some r
    | _ => none
  let mo ← parse2 (rest.take 2)
  let rest ← match rest.drop 2 with
    | '-' :: r => some r
    | _ => none
  let d ← parse2 (rest.take 2)
  if ¬(1 ≤ mo ∧ mo ≤ 12 ∧ 1 ≤ d ∧ d ≤ daysInMonth y mo) then none
  else
    match rest.drop 2 with
    | [] => pure ⟨y, mo, d, 0, 0, 0, none⟩
    | sep :: timeRest =>
      if sep = 'T' ∨ sep = ' ' then do
        let h ← parse2 (timeRest.take 2)
        let timeRest ← match timeRest.drop 2 with
          | ':' :: r => some r
          | _ => none
        let mi ← parse2 (timeRest.take 2)
        let timeRest ← match timeRest.drop 2 with
          | ':' :: r => some r
          | _ => none
        let sec ← parse2 (timeRest.take 2)
        if h < 24 ∧ mi < 60 ∧ sec < 60 then do
          let off ← parseTz (timeRest.drop 2)
          pure ⟨y, mo, d, h, mi, sec, off⟩
        else none
      else none

/-- Zero-pad to two digits (strftime's `%m`, `%d`, `%H`, `%M`, `%S`). -/
def pad2 (n : Nat) : String :=
  if n < 10 then "0" ++ toString n else toString n

/-- `strftime('%Y-%m-%dT%H:%M:%SZ')` (line 187): renders the stored wall
clock fields and a literal `Z`; the `tzinfo`/offset of the value is never
consulted. -/
def strftimeYmdHMSZ (dt : PyDateTime) : String :=
  toString dt.year ++ "-" ++ pad2 dt.month ++ "-" ++ pad2 dt.day ++ "T"
    ++ pad2 dt.hour ++ ":" ++ pad2 dt.minute ++ ":" ++ pad2 dt.second ++ "Z"

/-! ## The document model

BeautifulSoup matches a queried class string against a tag's (multi-valued)
`class` attribute by comparing it with each whitespace-separated token and
with the full attribute value. -/

/-- bs4 class matching: `query` matches a `class` attribute value `cls` when
it equals the whole value or one of its whitespace-separated tokens. -/
def classMatches (query cls : String) : Bool :=
  query == cls || (pySplitChar ' ' cls).contains query

/-- The `data-orig-file` / `data-orig-size` attributes of an `<img>`. -/
structure ImgAttrs where
  origFile : String
  origSize : String
  deriving Repr, DecidableEq

/-- A chapter link: an `<a>` inside a centre-aligned paragraph. -/
structure Anchor where
  href : String
  text : String
  deriving Repr, DecidableEq

/-- A block-level child of the index page body, in document order.  The
script only queries `h2` headings (by class and text) and centre-aligned
paragraphs (whose first `<a>`, when present, is the chapter link), so those
are the only informative constructors. -/
inductive IBlock where
  | h2 (cls : String) (text : String)
  | p (cls : String) (anchor : Option Anchor)
  | other
  deriving Repr, DecidableEq

/-- A child of a chapter page's `div.entry-content`, in document order. -/
inductive CNode where
  | p (text : String)
  | h2 (cls : String) (text : String)
  | div (cls : String)
  | hr
  | script
  | style
  | img (attrs : ImgAttrs)
  | other
  deriving Repr, DecidableEq

/-- The facts the script reads out of one chapter page's HTML. -/
structure ChapterDoc where
  /-- `find_all(attrs={'class': 'wp-block-image'})`, each paired with the
  first `<img>` inside it (`none` when the block has no `<img>` or the
  `<img>` lacks the orig-file/size attributes). -/
  imageBlocks : List (Option ImgAttrs)
  /-- `find('div', attrs={'class': 'entry-content'})`: its children, or
  `none` when the page has no such container. -/
  entryContent : Option (List CNode)
  deriving Repr, DecidableEq

/-- The facts the script reads out of the index page's HTML. -/
structure IndexPage where
  /-- Text of `find('h1', attrs={'class': 'entry-title'})`, `none` when the
  heading is absent. -/
  entryTitle : Option String
  /-- The `<img>` of `find('div', attrs={'class': 'wp-block-image'})`
  together with its data attributes; `none` when any link of that chain is
  absent. -/
  cover : Option ImgAttrs
  /-- `content` of `find('meta', attrs={'property': 'article:published_time'})`. -/
  publishedMeta : Option String
  /-- The body's block-level children in document order. -/
  blocks : List IBlock
  deriving Repr, DecidableEq

/-- A retained chapter: its display name and its (parsed) page. -/
structure Chapter where
  name : String
  html : ChapterDoc
  deriving Repr, DecidableEq

/-- The cover record built at the end of `fetch_toc`. -/
structure Cover where
  src : String
  filename : String
  width : Int
  height : Int
  deriving Repr, DecidableEq

/-- The in-memory book manifest (`ToC` dataclass). -/
structure ToC where
  url : String
  title : String
  author : String
  published_time : String
  cover : Cover
  chapters : List Chapter
  images : List String
  deriving Repr, DecidableEq

/-! ## `Book.fetch_toc` (lines 177-237) -/

/-- The class string queried for volume headings (lines 191 and 204-206). -/
def volHeadingCls : String := "wp-block-heading has-text-align-center"

/-- The chapter-link domain guard (line 200). -/
def cclawDomain : String := "https://cclawtranslations.home.blog/"

/-- The `sys.exit` message of line 193. -/
def multiVolumeMsg : String :=
  "Multi volume series detected, please use --volume to select the volume you want to use."

/-- Membership in the `volumes` list of lines 190-191: an `h2` of the
volume-heading class whose text starts with `Volume`. -/
def isVolumeHeading : IBlock → Bool
  | .h2 cls text => classMatches volHeadingCls cls && pyStartsWith text "Volume"
  | _ => false

/-- The iteration domain of line 197: every `p.has-text-align-center`
paired with its position among the blocks and its first `<a>`. -/
def centeredAnchors (blocks : List IBlock) : List (Nat × Option Anchor) :=
  blocks.enum.filterMap fun bi =>
    match bi.2 with
    | .p cls a => if classMatches "has-text-align-center" cls then some (bi.1, a) else none
    | _ => none

/-- `chapter.parent.find_previous_sibling('h2', …)` of lines 204-206: the
text of the nearest preceding `h2` of the volume-heading class, `none` when
there is no such sibling. -/
def prevVolHeading (blocks : List IBlock) (i : Nat) : Option String :=
  ((blocks.take i).filterMap fun b =>
    match b with
    | .h2 cls text => if classMatches volHeadingCls cls then some text else none
    | _ => none).getLast?

/-- The volume token of the anchor at block position `i`: the last
whitespace token of the nearest preceding volume heading. -/
def resolveVolume (blocks : List IBlock) (i : Nat) : Option String :=
  (prevVolHeading blocks i).bind pyLastToken

/-- Lines 216-217: collect `data-orig-file` of the `<img>` inside every
`wp-block-image` block of a chapter page; a block without such an `<img>`
is the `AttributeError` of `img.find('img').attrs[...]` on `None`. -/
def scanImagesList : List (Option ImgAttrs) → Except PyErr (List String)
  | [] => .ok []
  | none :: _ => .error .attributeError
  | some attrs :: rest =>
    match scanImagesList rest with
    | .error e => .error e
    | .ok urls => .ok (attrs.origFile :: urls)

/-- Lines 216-217 applied to a whole chapter page. -/
def scanImages (doc : ChapterDoc) : Except PyErr (List String) :=
  scanImagesList doc.imageBlocks

/-- The chapter loop of lines 197-222.  Returns the chapter pages fetched
(in fetch order) alongside either an error or the retained chapters and the
image URLs collected from them.  `net` is the external fetch collaborator,
already composed with HTML parsing. -/
def chapterLoop (net : String → ChapterDoc) (blocks : List IBlock)
    (volume : Option String) :
    List (Nat × Option Anchor) → List String × Except PyErr (List Chapter × List String)
  | [] => ([], .ok ([], []))
  | (i, a?) :: rest =>
    match a? with
    | none => ([], .error .attributeError)
    | some a =>
      if ¬ pyStartsWith a.href cclawDomain then
        chapterLoop net blocks volume rest
      else
        -- `if volume:` (line 203)
        if pyTruthy volume then
          match prevVolHeading blocks i with
          | none => ([], .error .attributeError)
          | some headingText =>
            match pyLastToken headingText with
            | none => ([], .error .indexError)
            | some chapterVolume =>
              let v := volume.getD ""
              if pyStrLt chapterVolume v then
                chapterLoop net blocks volume rest
              else if pyStrLt v chapterVolume then
                ([], .ok ([], []))
              else
                -- lines 214-222: fetch the page, scan it, retain the chapter
                match scanImages (net a.href) with
                | .error e => ([a.href], .error e)
                | .ok imgs =>
                  let (log, r) := chapterLoop net blocks volume rest
                  (a.href :: log,
                    match r with
                    | .error e => .error e
                    | .ok (chs, is) => .ok (⟨a.text, net a.href⟩ :: chs, imgs ++ is))
        else
          -- lines 214-222, the unfiltered path
          match scanImages (net a.href) with
          | .error e => ([a.href], .error e)
          | .ok imgs =>
            let (log, r) := chapterLoop net blocks volume rest
            (a.href :: log,
              match r with
              | .error e => .error e
              | .ok (chs, is) => .ok (⟨a.text, net a.href⟩ :: chs, imgs ++ is))

/-- `Book.fetch_toc` (lines 177-237), with the network collaborator made
explicit.  Returns the list of chapter-page URLs fetched (in order)
alongside the result: the built manifest or the Python exception that
aborted the build. -/
def fetch_toc (net : String → ChapterDoc) (page : IndexPage)
    (url author : String) (volume : Option String) :
    List String × Except PyErr ToC :=
  -- line 181: `soup.find('h1', …).text[:-len(' ToC')]`
  match page.entryTitle with
  | none => ([], .error .attributeError)
  | some t0 =>
    let title :=
      pyDropLast t0 (" ToC").length
        ++ (if pyTruthy volume then ", Vol. " ++ volume.getD "" else "")
    -- line 184: cover `<img>` chain
    match page.cover with
    | none => ([], .error .attributeError)
    | some cover =>
      -- lines 185-187: published time
      match page.publishedMeta with
      | none => ([], .error .attributeError)
      | some meta =>
        match fromisoformat meta with
        | none => ([], .error .valueError)
        | some dt =>
          let published_time := strftimeYmdHMSZ dt
          -- lines 190-193: multi-volume guard
          if (page.blocks.filter isVolumeHeading) ≠ [] ∧ ¬ pyTruthy volume then
            ([], .error (.systemExit multiVolumeMsg))
          else
            -- lines 195-222: the chapter loop
            let (log, r) := chapterLoop net page.blocks volume (centeredAnchors page.blocks)
            match r with
            | .error e => (log, .error e)
            | .ok (chapters, chapterImages) =>
              -- lines 229-234: the Cover record, with Python's evaluation
              -- order `int(split[0])`, then `split[1]`, then `int(split[1])`
              let parts := pySplitChar ',' cover.origSize
              match pyInt (parts.getD 0 "") with
              | none => (log, .error .valueError)
              | some width =>
                match parts.get? 1 with
                | none => (log, .error .indexError)
                | some hPart =>
                  match pyInt hPart with
                  | none => (log, .error .valueError)
                  | some height =>
                    (log, .ok
                      { url := url
                        title := title
                        author := author
                        published_time := published_time
                        cover :=
                          { src := cover.origFile
                            filename := pyBasename cover.origFile
                            width := width
                            height := height }
                        chapters := chapters
                        images := cover.origFile :: chapterImages })

/-! ## `Book.write_chapters` (lines 355-413) and
`Book.write_illustrations` (lines 329-353)

The rendered chapter body is modelled structurally: ordinary nodes pass
through, remapped images become SVG wrappers, and the Illustrations gallery
emits one plain `<p><img/></p>` item per image. -/

/-- A node of a rendered chapter body. -/
inductive RNode where
  /-- `<p><img src="src"/></p>` — a gallery item of `write_illustrations`
  (line 346), with `src` the already-prefixed `../Images/<basename>`. -/
  | pImg (src : String)
  /-- The SVG wrapper of lines 389-396: a `div.svg_outer.svg_inner` holding
  an `<svg viewBox="0 0 w h">` with `<image xlink:href="../Images/<basename
  of url>">` and the original `url` as a trailing comment. -/
  | svgImage (url : String) (width height : String)
  /-- Any other node, serialized as-is. -/
  | node (n : CNode)
  deriving Repr, DecidableEq

/-- Whether a rendered node is the Normalizer's SVG wrapper. -/
def RNode.isSvgWrapper : RNode → Bool
  | .svgImage _ _ _ => true
  | _ => false

/-- Line 357's special case: `write_illustrations` renders the body as one
plain `<img>` per `wp-block-image` block of the chapter's raw HTML, its
`src` pointing at `../Images/<basename>` (lines 331-334 and 345-347). -/
def write_illustrations (doc : ChapterDoc) : Except PyErr (List RNode) :=
  (scanImages doc).map fun urls =>
    urls.map fun u => .pImg ("../Images/" ++ pyBasename u)

/-- Whether a content node is a `<p>` (the domain of `find_all('p')` on
line 366). -/
def CNode.isP : CNode → Bool
  | .p _ => true
  | _ => false

/-- The heading test of line 367.  The source passes the *set literal*
`{'class', 'wp-block-heading'}` as `attrs`; bs4 treats a non-dict `attrs`
as a search for the `class` attribute with a list of alternatives, so the
sibling matches when it is an `h2` whose class matches `'wp-block-heading'`
or `'class'`. -/
def isHeading367 : CNode → Bool
  | .h2 cls _ => classMatches "wp-block-heading" cls || classMatches "class" cls
  | _ => false

/-- The paragraph-removal loop of lines 365-370.  The source iterates over
the paragraphs captured up front and `decompose`s each whose
`find_previous_sibling` finds no matching heading, `break`ing at the first
that has one.  Decomposed nodes are paragraphs and never headings, so the
sibling checks of the survivors are unaffected by earlier removals, and the
loop is equivalent to this scan: drop paragraphs until the first matching
heading, keep everything from it on. -/
def removePre : List CNode → List CNode
  | [] => []
  | n :: rest =>
    if isHeading367 n then n :: rest
    else if n.isP then removePre rest
    else n :: removePre rest

/-- `find('div', attrs={'class': cls})` membership test. -/
def isDivClass (cls : String) : CNode → Bool
  | .div c => classMatches cls c
  | _ => false

/-- Whether a content node is an `<hr>`. -/
def CNode.isHr : CNode → Bool
  | .hr => true
  | _ => false

/-- Whether a content node is a `<script>`. -/
def CNode.isScript : CNode → Bool
  | .script => true
  | _ => false

/-- Whether a content node is a `<style>`. -/
def CNode.isStyle : CNode → Bool
  | .style => true
  | _ => false

/-- `element.decompose()` of the first node matching `pred` when one
exists, the walrus-guarded pattern of lines 373-374, 377-378 and 380-381. -/
def eraseFirstIfPresent (pred : CNode → Bool) (l : List CNode) : List CNode :=
  if l.any pred then l.eraseP pred else l

/-- Lines 383-396: replace every remaining `<img>` with the SVG wrapper;
`width, height = img.attrs['data-orig-size'].split(',')` raises
`ValueError` unless the split has exactly two parts. -/
def remapImage : CNode → Except PyErr RNode
  | .img attrs =>
    match pySplitChar ',' attrs.origSize with
    | [w, h] => .ok (.svgImage attrs.origFile w h)
    | _ => .error .valueError
  | n => .ok (.node n)

/-- The image-remap pass over the remaining content nodes, in order. -/
def remapImages : List CNode → Except PyErr (List RNode)
  | [] => .ok []
  | n :: rest =>
    match remapImage n with
    | .error e => .error e
    | .ok r =>
      match remapImages rest with
      | .error e => .error e
      | .ok rs => .ok (r :: rs)

/-- The chapter normalization of lines 361-396 on the children of
`div.entry-content`: the paragraph-removal loop, then the boilerplate
removals — the walrus-guarded optional ones and the two unguarded ones
(`sharedaddy` on line 375 and `<script>` on line 379, where a missing
element is `None.decompose()`, an `AttributeError`) — then the image
remap. -/
def normalize (content : List CNode) : Except PyErr (List RNode) :=
  let c1 := removePre content
  -- line 373-374: ad wrapper, if present
  let c2 := eraseFirstIfPresent (isDivClass "wordads-ad-wrapper") c1
  -- line 375: sharing block, unguarded
  if ¬ c2.any (isDivClass "sharedaddy") then .error .attributeError
  else
    let c3 := c2.eraseP (isDivClass "sharedaddy")
    -- line 376: every spacer block
    let c4 := c3.filter fun n => ¬ isDivClass "wp-block-spacer" n
    -- lines 377-378: first `<hr>`, if present
    let c5 := eraseFirstIfPresent CNode.isHr c4
    -- line 379: first `<script>`, unguarded
    if ¬ c5.any CNode.isScript then .error .attributeError
    else
      let c6 := c5.eraseP CNode.isScript
      -- lines 380-381: first `<style>`, if present
      let c7 := eraseFirstIfPresent CNode.isStyle c6
      remapImages c7

/-- One chapter of `Book.write_chapters` (lines 355-413): the chapter named
`Illustrations` bypasses normalization (lines 357-359); every other chapter
is normalized from its `div.entry-content` (a page without one fails with
`AttributeError` at line 366's `find_all` on `None`). -/
def write_chapter (c : Chapter) : Except PyErr (List RNode) :=
  if c.name == "Illustrations" then write_illustrations c.html
  else
    match c.html.entryContent with
    | none => .error .attributeError
    | some content => normalize content

/-! ## The specification's reading of the published time

The spec states the published time is "re-emitted as UTC"; the following
definitions formalize that reading (they are the comparison point for the
refinement claim about `published_time`, not a translation of the code). -/

/-- Days since 1970-01-01 of a proleptic-Gregorian civil date
(floor-division form of the standard civil-from-days algorithm). -/
def daysFromCivil (y m d : Int) : Int :=
  let y' := if m ≤ 2 then y - 1 else y
  let era := Int.ediv y' 400
  let yoe := y' - era * 400
  let mp := if m > 2 then m - 3 else m + 9
  let doy := Int.ediv (153 * mp + 2) 5 + d - 1
  let doe := yoe * 365 + Int.ediv yoe 4 - Int.ediv yoe 100 + doy
  era * 146097 + doe - 719468

/-- Civil date (year, month, day) of a count of days since 1970-01-01. -/
def civilFromDays (z0 : Int) : Int × Int × Int :=
  let z := z0 + 719468
  let era := Int.ediv z 146097
  let doe := z - era * 146097
  let yoe :=
    Int.ediv (doe - Int.ediv doe 1460 + Int.ediv doe 36524 - Int.ediv doe 146096) 365
  let y := yoe + era * 400
  let doy := doe - (365 * yoe + Int.ediv yoe 4 - Int.ediv yoe 100)
  let mp := Int.ediv (5 * doy + 2) 153
  let d := doy - Int.ediv (153 * mp + 2) 5 + 1
  let m := if mp < 10 then mp + 3 else mp - 9
  (if m ≤ 2 then y + 1 else y, m, d)

/-- Modelled from the spec: "parse its ISO-8601 value, re-emitting as UTC"
— convert an aware datetime to the equivalent UTC instant (a naive value is
taken as already UTC).  Offsets are whole minutes, so seconds are
unchanged. -/
def specToUtc (dt : PyDateTime) : PyDateTime :=
  match dt.utcOffsetMinutes with
  | none => dt
  | some off =>
    let total : Int :=
      daysFromCivil (dt.year : Int) (dt.month : Int) (dt.day : Int) * 1440
        + (dt.hour : Int) * 60 + (dt.minute : Int) - off
    let days := Int.ediv total 1440
    let rem := Int.emod total 1440
    let (y, m, d) := civilFromDays days
    { year := y.toNat, month := m.toNat, day := d.toNat
      hour := (Int.ediv rem 60).toNat, minute := (Int.emod rem 60).toNat
      second := dt.second, utcOffsetMinutes := some 0 }

/-- Modelled from the spec: the published-time field as the spec describes
it — the meta value's instant converted to UTC and rendered as
`YYYY-MM-DDTHH:MM:SSZ`. -/
def specPublishedTime (meta : String) : Option String :=
  (fromisoformat meta).map fun dt => strftimeYmdHMSZ (specToUtc dt)

/-! ## Supporting lemmas -/

theorem pyCharsLt_asymm {a b : List Char} (h : pyCharsLt a b = true) :
    pyCharsLt b a = false := by
  induction a generalizing b with
  | nil =>
    cases b with
    | nil => simp [pyCharsLt] at h
    | cons y ys => simp [pyCharsLt]
  | cons x xs ih =>
    cases b with
    | nil => simp [pyCharsLt] at h
    | cons y ys =>
      by_cases hxy : x.toNat < y.toNat
      · simp [pyCharsLt, hxy, Nat.lt_asymm hxy]
      · by_cases hyx : y.toNat < x.toNat
        · simp [pyCharsLt, hxy, hyx] at h
        · simp only [pyCharsLt, if_neg hxy, if_neg hyx] at h
          simp [pyCharsLt, hxy, hyx, ih h]

theorem pyStrLt_asymm {a b : String} (h : pyStrLt a b = true) :
    pyStrLt b a = false :=
  pyCharsLt_asymm h

theorem pyDropLast_append (s t : String) :
    pyDropLast (s ++ t) t.length = s := by
  cases s with
  | mk sd =>
    cases t with
    | mk td =>
      show pyDropLast ⟨sd ++ td⟩ td.length = ⟨sd⟩
      simp [pyDropLast, String.length]

/-- `removePre` only ever drops nodes, in order. -/
theorem removePre_sublist (l : List CNode) : List.Sublist (removePre l) l := by
  induction l with
  | nil => simp [removePre]
  | cons n rest ih =>
    by_cases h : isHeading367 n = true
    · simp [removePre, h]
    · by_cases hp : n.isP = true
      · simp only [removePre, h, hp, if_false, if_true, Bool.false_eq_true]
        exact ih.cons n
      · simp only [removePre, h, hp, if_false, Bool.false_eq_true]
        exact ih.cons₂ n

/-- `removePre` drops only paragraphs, so it does not change whether a
non-paragraph kind of node occurs. -/
theorem removePre_any (q : CNode → Bool) (l : List CNode)
    (hq : ∀ n ∈ l, q n = true → n.isP = false) :
    (removePre l).any q = l.any q := by
  induction l with
  | nil => simp [removePre]
  | cons n rest ih =>
    have ih' := ih fun m hm => hq m (List.mem_cons_of_mem n hm)
    by_cases h : isHeading367 n = true
    · simp [removePre, h]
    · by_cases hp : n.isP = true
      · have hqn : q n = false := by
          by_contra hc
          have := hq n (List.mem_cons_self n rest) (by simpa using hc)
          simp [hp] at this
        simp [removePre, h, hp, ih', hqn]
      · simp [removePre, h, hp, ih']

/-- Erasing the first `p`-node does not change whether a `q`-node occurs,
when no node of the list satisfies both. -/
theorem eraseP_any (p q : CNode → Bool) (l : List CNode)
    (hpq : ∀ n ∈ l, q n = true → p n = false) :
    (l.eraseP p).any q = l.any q := by
  induction l with
  | nil => simp
  | cons n rest ih =>
    have ih' := ih fun m hm => hpq m (List.mem_cons_of_mem n hm)
    by_cases h : p n = true
    · have hqn : q n = false := by
        by_contra hc
        have := hpq n (List.mem_cons_self n rest) (by simpa using hc)
        simp [h] at this
      simp [List.eraseP_cons, h, hqn]
    · simp [List.eraseP_cons, h, ih']

theorem eraseFirstIfPresent_any (p q : CNode → Bool) (l : List CNode)
    (hpq : ∀ n ∈ l, q n = true → p n = false) :
    (eraseFirstIfPresent p l).any q = l.any q := by
  by_cases h : l.any p = true
  · simp [eraseFirstIfPresent, h, eraseP_any p q l hpq]
  · simp [eraseFirstIfPresent, h]

theorem eraseFirstIfPresent_sublist (p : CNode → Bool) (l : List CNode) :
    List.Sublist (eraseFirstIfPresent p l) l := by
  by_cases h : l.any p = true
  · simpa [eraseFirstIfPresent, h] using l.eraseP_sublist
  · simp [eraseFirstIfPresent, h]

/-- Filtering out one kind of node does not change whether another kind
occurs. -/
theorem filter_any_of_imp (p q : CNode → Bool) (l : List CNode)
    (hpq : ∀ n ∈ l, q n = true → p n = true) :
    (l.filter p).any q = l.any q := by
  induction l with
  | nil => simp
  | cons n rest ih =>
    have ih' := ih fun m hm => hpq m (List.mem_cons_of_mem n hm)
    by_cases h : p n = true
    · simp [h, ih']
    · have hqn : q n = false := by
        by_contra hc
        have := hpq n (List.mem_cons_self n rest) (by simpa using hc)
        simp [h] at this
      simp [List.filter_cons, h, ih', hqn]

/-- A successful image scan returns the `data-orig-file` of every block, in
order, and in particular one URL per block. -/
theorem scanImagesList_ok {bs : List (Option ImgAttrs)} {urls : List String}
    (h : scanImagesList bs = .ok urls) :
    urls = bs.filterMap (fun b => b.map ImgAttrs.origFile)
      ∧ urls.length = bs.length := by
  induction bs generalizing urls with
  | nil =>
    simp only [scanImagesList] at h
    cases h
    simp
  | cons b rest ih =>
    cases b with
    | none => simp [scanImagesList] at h
    | some attrs =>
      simp only [scanImagesList] at h
      cases hr : scanImagesList rest with
      | error e => rw [hr] at h; cases h
      | ok us =>
        rw [hr] at h
        cases h
        obtain ⟨h1, h2⟩ := ih hr
        exact ⟨by simp [h1, Option.map], by simp [h2]⟩

/-- When every image of the content carries a well-formed
`width,height` descriptor, the remap pass succeeds. -/
theorem remapImages_ok (l : List CNode)
    (h : ∀ a, CNode.img a ∈ l → (pySplitChar ',' a.origSize).length = 2) :
    ∃ rs, remapImages l = .ok rs := by
  induction l with
  | nil => exact ⟨[], rfl⟩
  | cons n rest ih =>
    obtain ⟨rs, hrs⟩ := ih fun a ha => h a (List.mem_cons_of_mem n ha)
    have hok : ∃ r, remapImage n = .ok r := by
      cases n with
      | img attrs =>
        have h2 := h attrs (List.mem_cons_self _ rest)
        match hp : pySplitChar ',' attrs.origSize with
        | [w, hgt] => exact ⟨.svgImage attrs.origFile w hgt, by simp [remapImage, hp]⟩
        | [] => rw [hp] at h2; simp at h2
        | [w] => rw [hp] at h2; simp at h2
        | w :: hgt :: x :: xs => rw [hp] at h2; simp at h2
      | p text => exact ⟨_, rfl⟩
      | h2 cls text => exact ⟨_, rfl⟩
      | div cls => exact ⟨_, rfl⟩
      | hr => exact ⟨_, rfl⟩
      | script => exact ⟨_, rfl⟩
      | style => exact ⟨_, rfl⟩
      | other => exact ⟨_, rfl⟩
    obtain ⟨r, hr⟩ := hok
    exact ⟨r :: rs, by simp [remapImages, hr, hrs]⟩

/-! ## Claim C4 -/

/-- C4: for a content container holding paragraphs (and other nodes)
followed by a chapter-title heading and then the real content, the
paragraph-removal loop of `write_chapters` removes exactly the paragraphs
that precede the first heading and removes no node at or after it (and no
non-paragraph node at all): it stops at the first paragraph with a
preceding heading match. -/
theorem C4_preheading_removal (pre : List CNode) (hn : CNode)
    (rest : List CNode) (hpre : ∀ n ∈ pre, isHeading367 n = false)
    (hhn : isHeading367 hn = true) :
    removePre (pre ++ hn :: rest)
      = pre.filter (fun n => !n.isP) ++ hn :: rest := by
  induction pre with
  | nil => simp [removePre, hhn]
  | cons n pre' ih =>
    have hn' : isHeading367 n = false := hpre n (List.mem_cons_self n pre')
    have ih' := ih fun m hm => hpre m (List.mem_cons_of_mem n hm)
    by_cases hp : n.isP = true
    · simp [removePre, hn', hp, ih']
    · have hp' : n.isP = false := by simpa using hp
      simp [removePre, hn', hp', ih', List.filter_cons]

/-- Witness for C4 at a concrete chapter body: a boilerplate banner
paragraph above the title heading is removed, the heading, the real
paragraphs after it and the non-paragraph nodes survive. -/
theorem C4_preheading_removal_witness :
    removePre
        [CNode.p "Latest chapter banner", CNode.div "wp-block-spacer",
          CNode.h2 "wp-block-heading" "Chapter 1", CNode.p "Real text",
          CNode.p "More text"]
      = [CNode.div "wp-block-spacer", CNode.h2 "wp-block-heading" "Chapter 1",
          CNode.p "Real text", CNode.p "More text"] := by
  have h := C4_preheading_removal
    [CNode.p "Latest chapter banner", CNode.div "wp-block-spacer"]
    (CNode.h2 "wp-block-heading" "Chapter 1")
    [CNode.p "Real text", CNode.p "More text"]
    (by decide) (by decide)
  exact h.trans (by decide)

/-! ## Claim C5 -/

/-- The two required elements of the claim: the sharing block and the
inline script. -/
def hasRequiredElements (content : List CNode) : Bool :=
  content.any (isDivClass "sharedaddy") && content.any CNode.isScript

/-- C5: under the structural assumptions the script takes for granted
(every embedded image carries a two-field size descriptor, and no single
`div` is both the ad wrapper and the sharing block), normalization of a
chapter fails — with the `AttributeError` that models
`MalformedChapterError` — exactly when one of the two
required-but-assumed-present elements (the `sharedaddy` sharing block, the
inline `<script>`) is absent from the content container; the absence of
the optional elements (ad wrapper, spacers, `<hr>`, `<style>`) never
causes a failure. -/
theorem C5_required_elements (content : List CNode)
    (himg : ∀ a, CNode.img a ∈ content → (pySplitChar ',' a.origSize).length = 2)
    (hdisj : ∀ n ∈ content, isDivClass "sharedaddy" n = true →
      isDivClass "wordads-ad-wrapper" n = false) :
    normalize content = .error .attributeError
      ↔ hasRequiredElements content = false := by
  -- occurrence of the sharing block is preserved up to its own check
  have hshare : ∀ n, isDivClass "sharedaddy" n = true → n.isP = false := by
    intro n h
    cases n <;> simp_all [isDivClass, CNode.isP]
  have hscript : ∀ n, CNode.isScript n = true → n.isP = false := by
    intro n h
    cases n <;> simp_all [CNode.isScript, CNode.isP]
  have h1share : (removePre content).any (isDivClass "sharedaddy")
      = content.any (isDivClass "sharedaddy") :=
    removePre_any _ _ fun n _ h => hshare n h
  have hmem1 : ∀ n ∈ removePre content, n ∈ content :=
    fun n hn => (removePre_sublist content).mem hn
  have h2share :
      (eraseFirstIfPresent (isDivClass "wordads-ad-wrapper") (removePre content)).any
          (isDivClass "sharedaddy")
        = content.any (isDivClass "sharedaddy") := by
    rw [eraseFirstIfPresent_any _ _ _
      (fun n hn hq => hdisj n (hmem1 n hn) hq), h1share]
  -- occurrence of the script survives every step before its own check
  have h1script : (removePre content).any CNode.isScript
      = content.any CNode.isScript :=
    removePre_any _ _ fun n _ h => hscript n h
  have hscriptNotDiv : ∀ (cls : String) (n : CNode),
      CNode.isScript n = true → isDivClass cls n = false := by
    intro cls n h
    cases n <;> simp_all [CNode.isScript, isDivClass]
  have hscriptNotHr : ∀ n, CNode.isScript n = true → CNode.isHr n = false := by
    intro n h
    cases n <;> simp_all [CNode.isScript, CNode.isHr]
  set c1 := removePre content with hc1
  set c2 := eraseFirstIfPresent (isDivClass "wordads-ad-wrapper") c1 with hc2
  have h2script : c2.any CNode.isScript = content.any CNode.isScript := by
    rw [hc2, eraseFirstIfPresent_any _ _ _
      (fun n _ h => hscriptNotDiv _ n h), h1script]
  set c3 := c2.eraseP (isDivClass "sharedaddy") with hc3
  have h3script : c3.any CNode.isScript = c2.any CNode.isScript := by
    rw [hc3, eraseP_any _ _ _ (fun n _ h => hscriptNotDiv _ n h)]
  set c4 := c3.filter (fun n => ¬ isDivClass "wp-block-spacer" n) with hc4
  have h4script : c4.any CNode.isScript = c3.any CNode.isScript := by
    rw [hc4]
    exact filter_any_of_imp _ _ _ fun n _ h => by
      simp [hscriptNotDiv "wp-block-spacer" n h]
  set c5 := eraseFirstIfPresent CNode.isHr c4 with hc5
  have h5script : c5.any CNode.isScript = c4.any CNode.isScript := by
    rw [hc5, eraseFirstIfPresent_any _ _ _ (fun n _ h => hscriptNotHr n h)]
  have hscriptAll : c5.any CNode.isScript = content.any CNode.isScript := by
    rw [h5script, h4script, h3script, h2script]
  -- the remap pass cannot fail under `himg`
  have hsub : ∀ n ∈ eraseFirstIfPresent CNode.isStyle (c5.eraseP CNode.isScript),
      n ∈ content := by
    intro n hn
    have s1 : List.Sublist (eraseFirstIfPresent CNode.isStyle (c5.eraseP CNode.isScript))
        (c5.eraseP CNode.isScript) := eraseFirstIfPresent_sublist _ _
    have s2 : List.Sublist (c5.eraseP CNode.isScript) c5 := List.eraseP_sublist _
    have s3 : List.Sublist c5 c4 := by rw [hc5]; exact eraseFirstIfPresent_sublist _ _
    have s4 : List.Sublist c4 c3 := by rw [hc4]; exact List.filter_sublist _
    have s5 : List.Sublist c3 c2 := by rw [hc3]; exact List.eraseP_sublist _
    have s6 : List.Sublist c2 c1 := by rw [hc2]; exact eraseFirstIfPresent_sublist _ _
    have s7 : List.Sublist c1 content := by rw [hc1]; exact removePre_sublist _
    exact s7.mem (s6.mem (s5.mem (s4.mem (s3.mem (s2.mem (s1.mem hn))))))
  constructor
  · intro herr
    by_contra hreq
    have hreq' : hasRequiredElements content = true := by
      cases h : hasRequiredElements content
      · exact absurd h hreq
      · rfl
    rw [hasRequiredElements, Bool.and_eq_true] at hreq'
    have hs : content.any (isDivClass "sharedaddy") = true := hreq'.1
    have hsc : content.any CNode.isScript = true := hreq'.2
    obtain ⟨rs, hrs⟩ := remapImages_ok
      (eraseFirstIfPresent CNode.isStyle (c5.eraseP CNode.isScript))
      (fun a ha => himg a (hsub _ ha))
    rw [normalize] at herr
    simp only [← hc1, ← hc2, h2share, hs] at herr
    simp only [← hc3, ← hc4, ← hc5, hscriptAll, hsc] at herr
    simp [hrs] at herr
  · intro hreq
    rw [normalize]
    simp only [← hc1, ← hc2, h2share]
    by_cases hs : content.any (isDivClass "sharedaddy") = true
    · have hsc : content.any CNode.isScript = false := by
        cases h : content.any CNode.isScript
        · rfl
        · exfalso
          rw [hasRequiredElements, hs, h] at hreq
          simp at hreq
      simp only [hs]
      simp only [← hc3, ← hc4, ← hc5, hscriptAll, hsc]
      simp
    · have hs' : content.any (isDivClass "sharedaddy") = false := by
        cases h : content.any (isDivClass "sharedaddy")
        · rfl
        · exact absurd h hs
      simp [hs']

/-- Witness for C5: a chapter with the sharing block and script present
(and the optional ad wrapper, spacer, `<hr>`, `<style>` all absent)
normalizes without failure, discharged through the theorem itself. -/
theorem C5_required_elements_witness :
    normalize [CNode.h2 "wp-block-heading" "Chapter 1", CNode.p "Text",
        CNode.div "sharedaddy", CNode.script]
      ≠ .error .attributeError := by
  have h := C5_required_elements
    [CNode.h2 "wp-block-heading" "Chapter 1", CNode.p "Text",
      CNode.div "sharedaddy", CNode.script]
    (fun a ha => by simp at ha) (by decide)
  intro hc
  exact absurd (h.mp hc) (by decide)

/-! ## Claim C7 -/

/-- C7: a chapter literally named `Illustrations` bypasses normalization
and renders as a gallery: one plain `<img>` per `wp-block-image` block of
its raw HTML, in document order, whose `src` is `../Images/<basename of
the original URL>`, and no SVG wrapper elements at all. -/
theorem C7_illustrations_gallery (c : Chapter) (body : List RNode)
    (hname : c.name = "Illustrations")
    (h : write_chapter c = .ok body) :
    body = (c.html.imageBlocks.filterMap (fun b => b.map ImgAttrs.origFile)).map
        (fun u => RNode.pImg ("../Images/" ++ pyBasename u))
      ∧ body.length = c.html.imageBlocks.length
      ∧ ∀ n ∈ body, n.isSvgWrapper = false := by
  rw [write_chapter, if_pos (by simp [hname])] at h
  rw [write_illustrations] at h
  cases hscan : scanImages c.html with
  | error e => rw [hscan] at h; cases h
  | ok urls =>
    rw [hscan] at h
    simp only [Except.map] at h
    cases h
    have hok : scanImagesList c.html.imageBlocks = .ok urls := hscan
    obtain ⟨h1, h2⟩ := scanImagesList_ok hok
    refine ⟨by rw [h1], by simp [h2], ?_⟩
    intro n hn
    obtain ⟨u, _, hu⟩ := List.mem_map.mp hn
    rw [← hu]
    rfl

/-- The concrete Illustrations chapter used as C7's witness: three
embedded images. -/
def illChapter : Chapter :=
  ⟨"Illustrations",
    ⟨[some ⟨"https://x/gallery/i1.jpg", "100,200"⟩,
      some ⟨"https://x/gallery/i2.png", "300,400"⟩,
      some ⟨"https://x/gallery/i3.jpg", "500,600"⟩], none⟩⟩

/-- Witness for C7: the three-image Illustrations chapter renders exactly
three `<img>` items, with `../Images/<basename>` sources and no SVG
wrappers. -/
theorem C7_illustrations_gallery_witness :
    write_chapter illChapter
        = .ok [RNode.pImg "../Images/i1.jpg", RNode.pImg "../Images/i2.png",
            RNode.pImg "../Images/i3.jpg"]
      ∧ (RNode.pImg "../Images/i1.jpg" :: RNode.pImg "../Images/i2.png"
          :: [RNode.pImg "../Images/i3.jpg"]).length = 3
      ∧ ∀ n ∈ [RNode.pImg "../Images/i1.jpg", RNode.pImg "../Images/i2.png",
          RNode.pImg "../Images/i3.jpg"], n.isSvgWrapper = false := by
  have hok : write_chapter illChapter
      = .ok [RNode.pImg "../Images/i1.jpg", RNode.pImg "../Images/i2.png",
          RNode.pImg "../Images/i3.jpg"] := rfl
  obtain ⟨-, h2, h3⟩ := C7_illustrations_gallery illChapter _ rfl hok
  exact ⟨hok, h2, h3⟩

/-! ## Claim C2 -/

/-- C2: on an index page (with the usual title, cover and published-time
elements) whose parsed HTML contains at least one volume heading, a build
without a volume argument fails with the fatal multi-volume `sys.exit`
before any chapter page is fetched (the fetch log is empty), and no
manifest is returned. -/
theorem C2_multivolume_guard (net : String → ChapterDoc) (page : IndexPage)
    (url author : String) (volume : Option String) (t0 : String)
    (cv : ImgAttrs) (m : String) (dt : PyDateTime)
    (ht : page.entryTitle = some t0)
    (hcv : page.cover = some cv)
    (hm : page.publishedMeta = some m)
    (hdt : fromisoformat m = some dt)
    (hvol : ∃ b ∈ page.blocks, isVolumeHeading b = true)
    (hnofilter : pyTruthy volume = false) :
    fetch_toc net page url author volume
      = ([], .error (.systemExit multiVolumeMsg)) := by
  have hne : (page.blocks.filter isVolumeHeading) ≠ [] := by
    obtain ⟨b, hb, hvb⟩ := hvol
    intro hnil
    have : b ∈ page.blocks.filter isVolumeHeading :=
      List.mem_filter.mpr ⟨hb, hvb⟩
    rw [hnil] at this
    cases this
  simp only [fetch_toc, ht, hcv, hm, hdt]
  simp [hne, hnofilter]

/-- The multi-volume index used as C2's witness. -/
def c2Page : IndexPage :=
  { entryTitle := some "Two Volume Series ToC"
    cover := some ⟨"https://x/cover.jpg", "1200,1800"⟩
    publishedMeta := some "2021-06-01T12:00:00Z"
    blocks :=
      [ IBlock.h2 "wp-block-heading has-text-align-center" "Volume 1"
      , IBlock.p "has-text-align-center"
          (some ⟨"https://cclawtranslations.home.blog/v1c1", "Ch 1"⟩)
      , IBlock.h2 "wp-block-heading has-text-align-center" "Volume 2"
      , IBlock.p "has-text-align-center"
          (some ⟨"https://cclawtranslations.home.blog/v2c1", "Ch 1"⟩) ] }

/-- A network stub that would answer any chapter fetch; the C2 witness
shows it is never consulted. -/
def emptyNet : String → ChapterDoc := fun _ => ⟨[], some []⟩

/-- Witness for C2 at the concrete two-volume index with no volume
argument: the build exits with the multi-volume message, fetching
nothing. -/
theorem C2_multivolume_guard_witness :
    fetch_toc emptyNet c2Page "https://cclawtranslations.home.blog/toc" "A" none
      = ([], .error (.systemExit multiVolumeMsg)) :=
  C2_multivolume_guard emptyNet c2Page _ _ none _ _ _ ⟨2021, 6, 1, 12, 0, 0, some 0⟩
    rfl rfl rfl (by decide) (by decide) (by decide)

/-! ## Inversion of a successful `fetch_toc` -/

/-- The image URLs the script collects from one chapter page. -/
def chapterImageUrls (doc : ChapterDoc) : List String :=
  doc.imageBlocks.filterMap fun b => b.map ImgAttrs.origFile

/-- Everything a successful `fetch_toc` pins down: the index lookups all
succeeded, the chapter loop produced the chapters and images, the cover
descriptor parsed, and the manifest is assembled from exactly these
pieces. -/
theorem fetch_toc_ok_inv (net : String → ChapterDoc) (page : IndexPage)
    (url author : String) (volume : Option String) (log : List String)
    (toc : ToC) (h : fetch_toc net page url author volume = (log, .ok toc)) :
    ∃ t0 cv m dt chs imgs w hs hgt,
      page.entryTitle = some t0
      ∧ page.cover = some cv
      ∧ page.publishedMeta = some m
      ∧ fromisoformat m = some dt
      ∧ chapterLoop net page.blocks volume (centeredAnchors page.blocks)
          = (log, .ok (chs, imgs))
      ∧ pyInt ((pySplitChar ',' cv.origSize).getD 0 "") = some w
      ∧ (pySplitChar ',' cv.origSize).get? 1 = some hs
      ∧ pyInt hs = some hgt
      ∧ toc =
        { url := url
          title := pyDropLast t0 (" ToC").length
            ++ (if pyTruthy volume then ", Vol. " ++ volume.getD "" else "")
          author := author
          published_time := strftimeYmdHMSZ dt
          cover := ⟨cv.origFile, pyBasename cv.origFile, w, hgt⟩
          chapters := chs
          images := cv.origFile :: imgs } := by
  unfold fetch_toc at h
  cases hT : page.entryTitle with
  | none => simp only [hT] at h; simp at h
  | some t0 =>
  simp only [hT] at h
  cases hC : page.cover with
  | none => simp only [hC] at h; simp at h
  | some cv =>
  simp only [hC] at h
  cases hM : page.publishedMeta with
  | none => simp only [hM] at h; simp at h
  | some m =>
  simp only [hM] at h
  cases hD : fromisoformat m with
  | none => simp only [hD] at h; simp at h
  | some dt =>
  simp only [hD] at h
  by_cases hmv : (page.blocks.filter isVolumeHeading) ≠ [] ∧ ¬ pyTruthy volume = true
  · rw [if_pos hmv] at h
    simp at h
  · rw [if_neg hmv] at h
    rcases hcl : chapterLoop net page.blocks volume (centeredAnchors page.blocks)
      with ⟨log', r⟩
    cases r with
    | error e =>
      simp only [hcl] at h
      simp at h
    | ok pr =>
    obtain ⟨chs, imgs⟩ := pr
    simp only [hcl] at h
    cases hW : pyInt ((pySplitChar ',' cv.origSize).getD 0 "") with
    | none => simp only [hW] at h; simp at h
    | some w =>
    simp only [hW] at h
    cases hH1 : (pySplitChar ',' cv.origSize).get? 1 with
    | none => simp only [hH1] at h; simp at h
    | some hs =>
    simp only [hH1] at h
    cases hH2 : pyInt hs with
    | none => simp only [hH2] at h; simp at h
    | some hgt =>
    simp only [hH2] at h
    simp only [Prod.mk.injEq, Except.ok.injEq] at h
    obtain ⟨hlog, htoc⟩ := h
    exact ⟨t0, cv, m, dt, chs, imgs, w, hs, hgt, rfl, rfl, rfl, hD,
      by rw [hlog], hW, hH1, hH2, htoc.symm⟩

/-- On the success path, the image list accumulated by the chapter loop is
exactly the per-retained-chapter image URLs, concatenated in traversal
order. -/
theorem chapterLoop_ok_images (net : String → ChapterDoc)
    (blocks : List IBlock) (volume : Option String)
    (ps : List (Nat × Option Anchor)) (log : List String)
    (chs : List Chapter) (imgs : List String)
    (h : chapterLoop net blocks volume ps = (log, .ok (chs, imgs))) :
    imgs = chs.flatMap fun c => chapterImageUrls c.html := by
  induction ps generalizing log chs imgs with
  | nil =>
    simp only [chapterLoop, Prod.mk.injEq, Except.ok.injEq] at h
    obtain ⟨-, h1, h2⟩ := h
    rw [← h1, ← h2]
    simp
  | cons head rest ih =>
    obtain ⟨i, a?⟩ := head
    cases a? with
    | none => simp [chapterLoop] at h
    | some a =>
    by_cases hdom : pyStartsWith a.href cclawDomain = true
    · rw [chapterLoop, if_neg (by simp [hdom])] at h
      have fetchCase :
          (match scanImages (net a.href) with
            | .error e => ([a.href], .error e)
            | .ok imgs0 =>
              let (log0, r) := chapterLoop net blocks volume rest
              (a.href :: log0,
                match r with
                | .error e => .error e
                | .ok (chs0, is0) =>
                  .ok (⟨a.text, net a.href⟩ :: chs0, imgs0 ++ is0)))
            = (log, Except.ok (chs, imgs))
          → imgs = chs.flatMap fun c => chapterImageUrls c.html := by
        intro hf
        cases hscan : scanImages (net a.href) with
        | error e => simp only [hscan] at hf; simp at hf
        | ok imgs0 =>
          simp only [hscan] at hf
          rcases hcl : chapterLoop net blocks volume rest with ⟨log0, r⟩
          cases r with
          | error e => simp only [hcl] at hf; simp at hf
          | ok pr =>
            obtain ⟨chs0, is0⟩ := pr
            simp only [hcl] at hf
            simp only [Prod.mk.injEq, Except.ok.injEq] at hf
            obtain ⟨-, h1, h2⟩ := hf
            rw [← h1, ← h2]
            have hrec := ih log0 chs0 is0 (by rw [hcl])
            have himgs0 : imgs0 = chapterImageUrls (net a.href) := by
              have hb : scanImagesList (net a.href).imageBlocks = .ok imgs0 := hscan
              rw [(scanImagesList_ok hb).1, chapterImageUrls]
            simp [hrec, himgs0]
      by_cases htr : pyTruthy volume = true
      · rw [if_pos htr] at h
        cases hheading : prevVolHeading blocks i with
        | none => simp only [hheading] at h; simp at h
        | some headingText =>
          simp only [hheading] at h
          cases htok : pyLastToken headingText with
          | none => simp only [htok] at h; simp at h
          | some cvtok =>
            simp only [htok] at h
            by_cases hlt : pyStrLt cvtok (volume.getD "") = true
            · rw [if_pos hlt] at h
              exact ih _ _ _ h
            · rw [if_neg hlt] at h
              by_cases hgt : pyStrLt (volume.getD "") cvtok = true
              · rw [if_pos hgt] at h
                simp only [Prod.mk.injEq, Except.ok.injEq] at h
                obtain ⟨-, h1, h2⟩ := h
                rw [← h1, ← h2]
                simp
              · rw [if_neg hgt] at h
                exact fetchCase h
      · rw [if_neg htr] at h
        exact fetchCase h
    · rw [chapterLoop, if_pos (by simp [hdom])] at h
      exact ih _ _ _ h

/-! ## Claim C6 -/

/-- C6: in every successfully built manifest, `images[0]` is the cover
image URL and the remainder is exactly the image URLs discovered in the
retained chapters, concatenated in first-seen traversal order with no
de-duplication (the list is literally the cover followed by each chapter's
URLs, so a URL occurring twice in the sources occurs twice here). -/
theorem C6_images_invariant (net : String → ChapterDoc) (page : IndexPage)
    (url author : String) (volume : Option String) (log : List String)
    (toc : ToC) (h : fetch_toc net page url author volume = (log, .ok toc)) :
    toc.images
      = toc.cover.src :: toc.chapters.flatMap fun c => chapterImageUrls c.html := by
  obtain ⟨t0, cv, m, dt, chs, imgs, w, hs, hgt, -, -, -, -, hcl, -, -, -, htoc⟩ :=
    fetch_toc_ok_inv net page url author volume log toc h
  have himgs := chapterLoop_ok_images net page.blocks volume _ log chs imgs hcl
  subst htoc
  simp [himgs]

/-- C6's witness network: two chapter pages sharing one image URL. -/
def c6Net : String → ChapterDoc := fun u =>
  if u = "https://cclawtranslations.home.blog/ch1" then
    ⟨[some ⟨"https://x/dup.jpg", "10,20"⟩], some []⟩
  else
    ⟨[some ⟨"https://x/dup.jpg", "10,20"⟩, some ⟨"https://x/other.png", "30,40"⟩], some []⟩

/-- C6's witness index: two retained chapters, no volume headings. -/
def c6Page : IndexPage :=
  { entryTitle := some "Dup Series ToC"
    cover := some ⟨"https://x/cover.jpg", "1200,1800"⟩
    publishedMeta := some "2021-06-01T12:00:00Z"
    blocks :=
      [ IBlock.p "has-text-align-center"
          (some ⟨"https://cclawtranslations.home.blog/ch1", "Ch 1"⟩)
      , IBlock.p "has-text-align-center"
          (some ⟨"https://cclawtranslations.home.blog/ch2", "Ch 2"⟩) ] }

/-- The manifest the witness build produces. -/
def c6Toc : ToC :=
  { url := "u", title := "Dup Series", author := "a"
    published_time := "2021-06-01T12:00:00Z"
    cover := ⟨"https://x/cover.jpg", "cover.jpg", 1200, 1800⟩
    chapters :=
      [ ⟨"Ch 1", ⟨[some ⟨"https://x/dup.jpg", "10,20"⟩], some []⟩⟩
      , ⟨"Ch 2", ⟨[some ⟨"https://x/dup.jpg", "10,20"⟩,
          some ⟨"https://x/other.png", "30,40"⟩], some []⟩⟩ ]
    images := ["https://x/cover.jpg", "https://x/dup.jpg", "https://x/dup.jpg",
      "https://x/other.png"] }

/-- Witness for C6: the concrete build succeeds, its image list is the
cover followed by the chapters' URLs in traversal order, and the URL seen
in both chapters is kept twice. -/
theorem C6_images_invariant_witness :
    fetch_toc c6Net c6Page "u" "a" none
        = (["https://cclawtranslations.home.blog/ch1",
            "https://cclawtranslations.home.blog/ch2"], .ok c6Toc)
      ∧ c6Toc.images
          = c6Toc.cover.src :: c6Toc.chapters.flatMap (fun c => chapterImageUrls c.html)
      ∧ c6Toc.images.count "https://x/dup.jpg" = 2 := by
  have hok : fetch_toc c6Net c6Page "u" "a" none
      = (["https://cclawtranslations.home.blog/ch1",
          "https://cclawtranslations.home.blog/ch2"], .ok c6Toc) := rfl
  exact ⟨hok, C6_images_invariant c6Net c6Page "u" "a" none _ c6Toc hok, by decide⟩

/-! ## Claim C3 -/

/-- C3 (amended): the manifest's `published_time` is the parsed meta
value's **wall-clock fields** rendered as `YYYY-MM-DDTHH:MM:SSZ`; the
value's UTC offset is never consulted, so no conversion to UTC happens
(the rendering equals the UTC instant only when the offset is zero or
absent). -/
theorem C3_published_time_amended (net : String → ChapterDoc)
    (page : IndexPage) (url author : String) (volume : Option String)
    (log : List String) (toc : ToC) (m : String) (dt : PyDateTime)
    (hm : page.publishedMeta = some m)
    (hdt : fromisoformat m = some dt)
    (h : fetch_toc net page url author volume = (log, .ok toc)) :
    toc.published_time = strftimeYmdHMSZ dt := by
  obtain ⟨t0, cv, m', dt', chs, imgs, w, hs, hgt, -, -, hm', hdt', -, -, -, -, htoc⟩ :=
    fetch_toc_ok_inv net page url author volume log toc h
  rw [hm] at hm'
  cases hm'
  rw [hdt] at hdt'
  cases hdt'
  subst htoc
  rfl

/-- C3's index fixture: the published-time meta carries a `+02:00`
offset. -/
def c3Page : IndexPage :=
  { entryTitle := some "Offset Series ToC"
    cover := some ⟨"https://x/cover.jpg", "1200,1800"⟩
    publishedMeta := some "2021-06-01T12:00:00+02:00"
    blocks := [] }

/-- The manifest the C3 fixture build produces. -/
def c3Toc : ToC :=
  { url := "u", title := "Offset Series", author := "a"
    published_time := "2021-06-01T12:00:00Z"
    cover := ⟨"https://x/cover.jpg", "cover.jpg", 1200, 1800⟩
    chapters := [], images := ["https://x/cover.jpg"] }

/-- Witness for the amended C3: at the `+02:00` fixture the field is the
wall-clock rendering of the parsed value. -/
theorem C3_published_time_amended_witness :
    c3Toc.published_time = strftimeYmdHMSZ ⟨2021, 6, 1, 12, 0, 0, some 120⟩ :=
  C3_published_time_amended emptyNet c3Page "u" "a" none [] c3Toc
    "2021-06-01T12:00:00+02:00" ⟨2021, 6, 1, 12, 0, 0, some 120⟩
    rfl (by decide) rfl

/-- Counterexample to C3 as stated: for the valid ISO-8601 meta value
`2021-06-01T12:00:00+02:00` (a non-UTC offset) the build succeeds and
emits `2021-06-01T12:00:00Z`, while the instant converted to UTC renders
as `2021-06-01T10:00:00Z` — the field does not equal the UTC
conversion. -/
theorem C3_published_time_counterexample :
    (fetch_toc emptyNet c3Page "u" "a" none).2.toOption.map ToC.published_time
        = some "2021-06-01T12:00:00Z"
      ∧ specPublishedTime "2021-06-01T12:00:00+02:00"
        = some "2021-06-01T10:00:00Z"
      ∧ (fetch_toc emptyNet c3Page "u" "a" none).2.toOption.map ToC.published_time
        ≠ specPublishedTime "2021-06-01T12:00:00+02:00" :=
  ⟨rfl, rfl, by decide⟩

/-! ## Claim C8 -/

/-- C8 (amended): in every successfully built manifest the cover's width
and height are exactly the `int()` parses of the first and second
comma-separated fields of the cover image's `data-orig-size` descriptor —
parsed, but never validated: the code enforces no strict positivity, so
the fields are strictly positive only when the descriptor's numerals
are. -/
theorem C8_cover_size_amended (net : String → ChapterDoc) (page : IndexPage)
    (url author : String) (volume : Option String) (log : List String)
    (toc : ToC) (cv : ImgAttrs)
    (hcv : page.cover = some cv)
    (h : fetch_toc net page url author volume = (log, .ok toc)) :
    pyInt ((pySplitChar ',' cv.origSize).getD 0 "") = some toc.cover.width
      ∧ ((pySplitChar ',' cv.origSize).get? 1).bind pyInt
        = some toc.cover.height := by
  obtain ⟨t0, cv', m, dt, chs, imgs, w, hs, hgt, -, hcv', -, -, -, hW, hH1, hH2, htoc⟩ :=
    fetch_toc_ok_inv net page url author volume log toc h
  rw [hcv] at hcv'
  cases hcv'
  subst htoc
  exact ⟨hW, by rw [hH1]; simpa using hH2⟩

/-- C8's counterexample index: the cover's size descriptor is
`"0,1800"`. -/
def c8Page : IndexPage :=
  { entryTitle := some "Degenerate Cover ToC"
    cover := some ⟨"https://x/cover.png", "0,1800"⟩
    publishedMeta := some "2021-06-01T12:00:00Z"
    blocks := [] }

/-- The manifest the C8 fixture build produces: note `width = 0`. -/
def c8Toc : ToC :=
  { url := "u", title := "Degenerate Cover", author := "a"
    published_time := "2021-06-01T12:00:00Z"
    cover := ⟨"https://x/cover.png", "cover.png", 0, 1800⟩
    chapters := [], images := ["https://x/cover.png"] }

/-- Counterexample to C8 as stated: a build from a `"0,1800"` size
descriptor succeeds, and the resulting cover width is `0` — not a strictly
positive integer. -/
theorem C8_cover_size_counterexample :
    (fetch_toc emptyNet c8Page "u" "a" none).2.toOption.map (fun t => t.cover.width)
        = some 0
      ∧ (fetch_toc emptyNet c8Page "u" "a" none).2.toOption.map
          (fun t => decide (0 < t.cover.width)) = some false :=
  ⟨rfl, rfl⟩

/-- Witness for the amended C8 at the fixture: both fields are the parses
of the descriptor's two fields. -/
theorem C8_cover_size_amended_witness :
    pyInt ((pySplitChar ',' (ImgAttrs.origSize ⟨"https://x/cover.png", "0,1800"⟩)).getD 0 "")
        = some c8Toc.cover.width
      ∧ ((pySplitChar ',' (ImgAttrs.origSize ⟨"https://x/cover.png", "0,1800"⟩)).get? 1).bind pyInt
        = some c8Toc.cover.height :=
  C8_cover_size_amended emptyNet c8Page "u" "a" none [] c8Toc
    ⟨"https://x/cover.png", "0,1800"⟩ rfl rfl

/-! ## Claim C9 -/

/-- C9: in every successful build whose index title heading ends in
`" ToC"`, the manifest title is the heading text with that suffix
stripped, plus `", Vol. <volume>"` exactly when a (truthy) volume filter
was supplied; with no filter the title carries no volume suffix. -/
theorem C9_title_volume_suffix (net : String → ChapterDoc) (page : IndexPage)
    (url author : String) (volume : Option String) (log : List String)
    (toc : ToC) (s : String)
    (ht : page.entryTitle = some (s ++ " ToC"))
    (h : fetch_toc net page url author volume = (log, .ok toc)) :
    (pyTruthy volume = true → toc.title = s ++ ", Vol. " ++ volume.getD "")
      ∧ (pyTruthy volume = false → toc.title = s) := by
  obtain ⟨t0, cv, m, dt, chs, imgs, w, hs, hgt, ht', -, -, -, -, -, -, -, htoc⟩ :=
    fetch_toc_ok_inv net page url author volume log toc h
  rw [ht] at ht'
  cases ht'
  subst htoc
  have hdrop : pyDropLast (s ++ " ToC") (" ToC").length = s :=
    pyDropLast_append s " ToC"
  constructor
  · intro htr
    simp [htr, hdrop, String.append_assoc]
  · intro hfa
    simp [hfa, hdrop]

/-- C9's index fixture. -/
def c9Page : IndexPage :=
  { entryTitle := some "My Series ToC"
    cover := some ⟨"https://x/cover.jpg", "1200,1800"⟩
    publishedMeta := some "2021-06-01T12:00:00Z"
    blocks := [] }

/-- The manifest of the C9 fixture built with `--volume 2`. -/
def c9TocV : ToC :=
  { url := "u", title := "My Series, Vol. 2", author := "a"
    published_time := "2021-06-01T12:00:00Z"
    cover := ⟨"https://x/cover.jpg", "cover.jpg", 1200, 1800⟩
    chapters := [], images := ["https://x/cover.jpg"] }

/-- The manifest of the C9 fixture built with no volume argument. -/
def c9TocN : ToC :=
  { url := "u", title := "My Series", author := "a"
    published_time := "2021-06-01T12:00:00Z"
    cover := ⟨"https://x/cover.jpg", "cover.jpg", 1200, 1800⟩
    chapters := [], images := ["https://x/cover.jpg"] }

/-- Witness for C9: with filter `"2"` the title gains `, Vol. 2`; with no
filter it is the bare stripped heading. -/
theorem C9_title_volume_suffix_witness :
    c9TocV.title = "My Series, Vol. 2" ∧ c9TocN.title = "My Series" := by
  have h1 := (C9_title_volume_suffix emptyNet c9Page "u" "a" (some "2") [] c9TocV
    "My Series" rfl rfl).1 (by decide)
  have h2 := (C9_title_volume_suffix emptyNet c9Page "u" "a" none [] c9TocN
    "My Series" rfl rfl).2 (by decide)
  exact ⟨h1.trans (by decide), h2⟩

/-! ## Claim C1 -/

/-- On the success path of the chapter loop with an active volume filter
`v`, when every anchor is present, in-domain, and resolves to a volume
token, the retained chapters are exactly: enumeration up to (excluding)
the first anchor whose token exceeds `v`, keeping those whose token is not
below `v`, in document order. -/
theorem chapterLoop_volume_filter (net : String → ChapterDoc)
    (blocks : List IBlock) (v : String) (hv : v ≠ "")
    (ps : List (Nat × Option Anchor)) (tagged : List (Anchor × String))
    (hmap : ps.map (fun e => (e.2, resolveVolume blocks e.1))
      = tagged.map (fun at_ => (some at_.1, some at_.2)))
    (hdom : ∀ at_ ∈ tagged, pyStartsWith at_.1.href cclawDomain = true)
    (log : List String) (chs : List Chapter) (imgs : List String)
    (h : chapterLoop net blocks (some v) ps = (log, .ok (chs, imgs))) :
    chs = ((tagged.takeWhile fun at_ => ! pyStrLt v at_.2).filter
        fun at_ => ! pyStrLt at_.2 v).map
      fun at_ => Chapter.mk at_.1.text (net at_.1.href) := by
  induction ps generalizing tagged log chs imgs with
  | nil =>
    cases tagged with
    | nil =>
      simp only [chapterLoop, Prod.mk.injEq, Except.ok.injEq] at h
      obtain ⟨-, h1, -⟩ := h
      rw [← h1]
      simp
    | cons at0 tagged' => simp at hmap
  | cons head rest ih =>
    obtain ⟨i, a?⟩ := head
    cases tagged with
    | nil => simp at hmap
    | cons at0 tagged' =>
    obtain ⟨a, t⟩ := at0
    simp only [List.map_cons, List.cons.injEq, Prod.mk.injEq] at hmap
    obtain ⟨⟨ha, hres⟩, hmap'⟩ := hmap
    subst ha
    have hdom0 : pyStartsWith a.href cclawDomain = true :=
      hdom (a, t) (List.mem_cons_self _ _)
    have hdom' : ∀ at_ ∈ tagged', pyStartsWith at_.1.href cclawDomain = true :=
      fun at_ hm => hdom at_ (List.mem_cons_of_mem _ hm)
    rw [chapterLoop, if_neg (by simp [hdom0])] at h
    have htr : pyTruthy (some v) = true := by simpa [pyTruthy] using hv
    rw [if_pos htr] at h
    obtain ⟨headingText, hheading, htok⟩ := Option.bind_eq_some.mp hres
    simp only [hheading, htok] at h
    by_cases hlt : pyStrLt t v = true
    · rw [if_pos (by simpa using hlt)] at h
      have hvt : pyStrLt v t = false := pyStrLt_asymm hlt
      have := ih tagged' hmap' hdom' log chs imgs h
      simp [List.takeWhile_cons, List.filter_cons, hvt, hlt, this]
    · rw [if_neg (by simpa using hlt)] at h
      by_cases hgt : pyStrLt v t = true
      · rw [if_pos (by simpa using hgt)] at h
        simp only [Prod.mk.injEq, Except.ok.injEq] at h
        obtain ⟨-, h1, -⟩ := h
        rw [← h1]
        simp [List.takeWhile_cons, hgt]
      · rw [if_neg (by simpa using hgt)] at h
        have hltF : pyStrLt t v = false := by
          cases hx : pyStrLt t v
          · rfl
          · exact absurd hx hlt
        have hgtF : pyStrLt v t = false := by
          cases hx : pyStrLt v t
          · rfl
          · exact absurd hx hgt
        cases hscan : scanImages (net a.href) with
        | error e => simp only [hscan] at h; simp at h
        | ok imgs0 =>
          simp only [hscan] at h
          rcases hcl : chapterLoop net blocks (some v) rest with ⟨log0, r⟩
          cases r with
          | error e => simp only [hcl] at h; simp at h
          | ok pr =>
            obtain ⟨chs0, is0⟩ := pr
            simp only [hcl, Prod.mk.injEq, Except.ok.injEq] at h
            obtain ⟨-, h1, -⟩ := h
            rw [← h1]
            have := ih tagged' hmap' hdom' log0 chs0 is0 (by rw [hcl])
            simp [List.takeWhile_cons, List.filter_cons, hltF, hgtF, this]

/-- C1: with a supplied volume filter `v`, on an index whose in-domain
chapter anchors each resolve to a volume token (listed by `tagged` in
document order), a successful manifest build retains exactly the anchors
whose token equals `v` — those before the first token above `v` and not
below `v` — in document order, skipping tokens below `v` and stopping the
enumeration at the first token above `v` (string comparison, so `"10"`
sorts below `"2"`). -/
theorem C1_volume_filter (net : String → ChapterDoc) (page : IndexPage)
    (url author : String) (v : String) (hv : v ≠ "")
    (tagged : List (Anchor × String))
    (hmap : (centeredAnchors page.blocks).map
        (fun e => (e.2, resolveVolume page.blocks e.1))
      = tagged.map (fun at_ => (some at_.1, some at_.2)))
    (hdom : ∀ at_ ∈ tagged, pyStartsWith at_.1.href cclawDomain = true)
    (log : List String) (toc : ToC)
    (h : fetch_toc net page url author (some v) = (log, .ok toc)) :
    toc.chapters = ((tagged.takeWhile fun at_ => ! pyStrLt v at_.2).filter
        fun at_ => ! pyStrLt at_.2 v).map
      fun at_ => Chapter.mk at_.1.text (net at_.1.href) := by
  obtain ⟨t0, cv, m, dt, chs, imgs, w, hs, hgt, -, -, -, -, hcl, -, -, -, htoc⟩ :=
    fetch_toc_ok_inv net page url author (some v) log toc h
  subst htoc
  exact chapterLoop_volume_filter net page.blocks v hv _ tagged hmap hdom
    log chs imgs hcl

/-- C1's witness network. -/
def c1Net : String → ChapterDoc := fun u =>
  if u = "https://cclawtranslations.home.blog/c3" then
    ⟨[some ⟨"https://x/im1.jpg", "10,20"⟩], some []⟩
  else ⟨[], some []⟩

/-- C1's witness index: four in-domain chapter anchors tagged with
volumes `1, 1, 2, 2` in document order. -/
def c1Page : IndexPage :=
  { entryTitle := some "Vol Series ToC"
    cover := some ⟨"https://x/cover.jpg", "1200,1800"⟩
    publishedMeta := some "2021-06-01T12:00:00Z"
    blocks :=
      [ IBlock.h2 "wp-block-heading has-text-align-center" "Volume 1"
      , IBlock.p "has-text-align-center"
          (some ⟨"https://cclawtranslations.home.blog/c1", "Ch 1"⟩)
      , IBlock.p "has-text-align-center"
          (some ⟨"https://cclawtranslations.home.blog/c2", "Ch 2"⟩)
      , IBlock.h2 "wp-block-heading has-text-align-center" "Volume 2"
      , IBlock.p "has-text-align-center"
          (some ⟨"https://cclawtranslations.home.blog/c3", "Ch 3"⟩)
      , IBlock.p "has-text-align-center"
          (some ⟨"https://cclawtranslations.home.blog/c4", "Ch 4"⟩) ] }

/-- The manifest the C1 fixture build produces with filter `"2"`. -/
def c1Toc : ToC :=
  { url := "u", title := "Vol Series, Vol. 2", author := "a"
    published_time := "2021-06-01T12:00:00Z"
    cover := ⟨"https://x/cover.jpg", "cover.jpg", 1200, 1800⟩
    chapters :=
      [ ⟨"Ch 3", ⟨[some ⟨"https://x/im1.jpg", "10,20"⟩], some []⟩⟩
      , ⟨"Ch 4", ⟨[], some []⟩⟩ ]
    images := ["https://x/cover.jpg", "https://x/im1.jpg"] }

/-- The document-order anchor/volume tagging of the C1 fixture. -/
def c1Tagged : List (Anchor × String) :=
  [ (⟨"https://cclawtranslations.home.blog/c1", "Ch 1"⟩, "1")
  , (⟨"https://cclawtranslations.home.blog/c2", "Ch 2"⟩, "1")
  , (⟨"https://cclawtranslations.home.blog/c3", "Ch 3"⟩, "2")
  , (⟨"https://cclawtranslations.home.blog/c4", "Ch 4"⟩, "2") ]

/-- Witness for C1 at the claim's own example: anchors tagged
`1, 1, 2, 2` with filter `"2"` retain exactly the last two chapters, in
original order. -/
theorem C1_volume_filter_witness :
    fetch_toc c1Net c1Page "u" "a" (some "2")
        = (["https://cclawtranslations.home.blog/c3",
            "https://cclawtranslations.home.blog/c4"], .ok c1Toc)
      ∧ c1Toc.chapters
        = ((c1Tagged.takeWhile fun at_ => ! pyStrLt "2" at_.2).filter
            fun at_ => ! pyStrLt at_.2 "2").map
          (fun at_ => Chapter.mk at_.1.text (c1Net at_.1.href))
      ∧ c1Toc.chapters.map Chapter.name = ["Ch 3", "Ch 4"] := by
  have hok : fetch_toc c1Net c1Page "u" "a" (some "2")
      = (["https://cclawtranslations.home.blog/c3",
          "https://cclawtranslations.home.blog/c4"], .ok c1Toc) := rfl
  refine ⟨hok, ?_, by decide⟩
  exact C1_volume_filter c1Net c1Page "u" "a" "2" (by decide) c1Tagged
    (by decide) (by decide) _ c1Toc hok

/-! ## Claim C10 -/

/-- Anchors whose link target is off-domain are skipped without any
effect on the loop's state. -/
theorem chapterLoop_skip_offdomain (net : String → ChapterDoc)
    (blocks : List IBlock) (volume : Option String)
    (pre ps : List (Nat × Option Anchor))
    (hpre : ∀ e ∈ pre, ∃ b, e.2 = some b
      ∧ pyStartsWith b.href cclawDomain = false) :
    chapterLoop net blocks volume (pre ++ ps)
      = chapterLoop net blocks volume ps := by
  induction pre with
  | nil => simp
  | cons e pre' ih =>
    obtain ⟨j, b?⟩ := e
    obtain ⟨b, hb, hbdom⟩ := hpre (j, b?) (List.mem_cons_self _ _)
    simp only [] at hb
    subst hb
    rw [List.cons_append, chapterLoop, if_pos (by simp [hbdom])]
    exact ih fun e he => hpre e (List.mem_cons_of_mem _ he)

/-- C10: with a volume filter supplied, on an otherwise well-formed index
whose first in-domain chapter anchor (anchors before it being off-domain
links) has no preceding volume-heading sibling, manifest construction
fails with the `AttributeError` of dereferencing the failed
`find_previous_sibling` lookup — the chapter is neither retained nor
skipped, and nothing is fetched.  (Volume headings only accumulate along
the document, so if any in-domain anchor lacks a preceding heading, the
first one does.) -/
theorem C10_unguarded_heading_lookup (net : String → ChapterDoc)
    (page : IndexPage) (url author : String) (volume : Option String)
    (t0 : String) (cv : ImgAttrs) (m : String) (dt : PyDateTime)
    (ht : page.entryTitle = some t0) (hcv : page.cover = some cv)
    (hm : page.publishedMeta = some m) (hdt : fromisoformat m = some dt)
    (htr : pyTruthy volume = true)
    (pre post : List (Nat × Option Anchor)) (i : Nat) (a : Anchor)
    (hsplit : centeredAnchors page.blocks = pre ++ (i, some a) :: post)
    (hpre : ∀ e ∈ pre, ∃ b, e.2 = some b
      ∧ pyStartsWith b.href cclawDomain = false)
    (hdom : pyStartsWith a.href cclawDomain = true)
    (hnoheading : prevVolHeading page.blocks i = none) :
    fetch_toc net page url author volume = ([], .error .attributeError) := by
  have hloop : chapterLoop net page.blocks volume (centeredAnchors page.blocks)
      = ([], .error .attributeError) := by
    rw [hsplit, chapterLoop_skip_offdomain net page.blocks volume pre _ hpre]
    rw [chapterLoop, if_neg (by simp [hdom]), if_pos htr, hnoheading]
  unfold fetch_toc
  simp only [ht, hcv, hm, hdt]
  rw [if_neg (by simp [htr])]
  simp only [hloop]

/-- C10's witness index: an off-domain link, then an in-domain chapter
anchor with no volume heading anywhere before it. -/
def c10Page : IndexPage :=
  { entryTitle := some "Headless ToC"
    cover := some ⟨"https://x/cover.jpg", "1200,1800"⟩
    publishedMeta := some "2021-06-01T12:00:00Z"
    blocks :=
      [ IBlock.p "has-text-align-center"
          (some ⟨"https://other.example.com/ad", "Ad"⟩)
      , IBlock.p "has-text-align-center"
          (some ⟨"https://cclawtranslations.home.blog/c1", "Ch 1"⟩) ] }

/-- Witness for C10: building the fixture with filter `"2"` fails with
the unguarded-lookup `AttributeError`, before any chapter fetch. -/
theorem C10_unguarded_heading_lookup_witness :
    fetch_toc emptyNet c10Page "u" "a" (some "2")
      = ([], .error .attributeError) :=
  C10_unguarded_heading_lookup emptyNet c10Page "u" "a" (some "2")
    "Headless ToC" ⟨"https://x/cover.jpg", "1200,1800"⟩
    "2021-06-01T12:00:00Z" ⟨2021, 6, 1, 12, 0, 0, some 0⟩
    rfl rfl rfl (by decide) (by decide)
    [(0, some ⟨"https://other.example.com/ad", "Ad"⟩)] []
    1 ⟨"https://cclawtranslations.home.blog/c1", "Ch 1"⟩
    (by decide)
    (fun e he => by
      rw [List.mem_singleton] at he
      subst he
      exact ⟨⟨"https://other.example.com/ad", "Ad"⟩, rfl, by decide⟩)
    (by decide) (by decide)

end CClaw
